import Mathlib

/-
Verification development for the case-analysis-system repository.

The repository ships the React frontend (src/v1/frontend), the backend
README and the architecture document; the Python backend services
themselves (status state machine persistence, cost budget guard, text
extraction, AI orchestrator, citation validator, bulk coordinator) are
not part of the source tree.  Definitions for those components are
therefore modelled from the specification; every such definition carries
a doc comment starting with "Modelled from the spec:".  Frontend logic
(Documents.tsx, the document-detail page) is embedded directly from the
TypeScript source.

Money amounts are embedded as rationals; UTC calendar days as natural
numbers.  Concurrency is embedded in the standard way: the spec makes
the budget guard's reserve and the state machine's processing guard
atomic serialization points, so every concurrent execution is equivalent
to some sequential trace of events, and the theorems quantify over all
such traces.
-/

namespace CaseAnalysis

/-- Document status, from src/v1/frontend/src/types/index.ts line 34:
the union type of exactly six string literals. -/
inductive DocStatus where
  | uploaded
  | processing
  | analysis_complete
  | failed
  | extraction_failed
  | poor_quality
  deriving DecidableEq, Repr

/-- The string persisted for each status (the literal of the union type
in types/index.ts). -/
def DocStatus.statusString : DocStatus → String
  | .uploaded => "uploaded"
  | .processing => "processing"
  | .analysis_complete => "analysis_complete"
  | .failed => "failed"
  | .extraction_failed => "extraction_failed"
  | .poor_quality => "poor_quality"

/-- Terminal statuses of §4.1: analysis_complete, failed,
extraction_failed, poor_quality. -/
def DocStatus.isTerminal : DocStatus → Bool
  | .analysis_complete => true
  | .failed => true
  | .extraction_failed => true
  | .poor_quality => true
  | _ => false

/-- A person entity of an entity-extraction result
(types/index.ts, PersonEntity). -/
structure PersonEntity where
  name : String
  role : String
  confidence : ℚ
  deriving DecidableEq, Repr

/-- The primary-model analysis block of an AnalysisResult
(types/index.ts, DocumentAnalysis.analysis). -/
structure AnalysisOut where
  summary : String
  classification : String
  confidence : ℚ
  key_points : List String
  model : String
  deriving DecidableEq, Repr

/-- The secondary-model entities block of an AnalysisResult
(types/index.ts, DocumentAnalysis.entities). -/
structure EntitiesOut where
  people : List PersonEntity
  dates : List String
  locations : List String
  case_numbers : List String
  organizations : List String
  model : String
  deriving DecidableEq, Repr

/-- The extraction block of an AnalysisResult
(types/index.ts, DocumentAnalysis.extraction). -/
structure ExtractionOut where
  text : String
  text_length : ℕ
  quality_score : ℚ
  extraction_method : String
  deriving DecidableEq, Repr

/-- The processing block of an AnalysisResult
(types/index.ts, DocumentAnalysis.processing; the timestamp fields are
elided, the cost and error fields are kept). -/
structure ProcessingOut where
  total_cost_usd : ℚ
  error : Option String
  deriving DecidableEq, Repr

/-- The durable output of one analysis run (§3 AnalysisResult,
types/index.ts DocumentAnalysis): extraction, nullable analysis,
nullable entities, processing metadata. -/
structure AnalysisResultR where
  extraction : Option ExtractionOut
  analysis : Option AnalysisOut
  entities : Option EntitiesOut
  processing : ProcessingOut
  deriving DecidableEq, Repr

/-- A document record as the pipeline sees it: current status plus the
nullable AnalysisResult (§3 Document). -/
structure DocRecord where
  status : DocStatus
  result : Option AnalysisResultR
  deriving DecidableEq, Repr

/-- Modelled from the spec: the Status State Machine's guard on a
start-analysis request (§4.1, §5); the backend implementation is not in
the source tree, only its frontend callers are (Documents.tsx
analyzeMutation).  A request while the document is `processing` is
rejected outright; otherwise a request from `uploaded`, or a forced
request from any terminal state, starts a run when the budget
reservation succeeds.  Returns (accepted, updated document). -/
def startAnalysis (force : Bool) (budgetOk : Bool) (doc : DocRecord) :
    Bool × DocRecord :=
  if doc.status = .processing then (false, doc)
  else if doc.status = .uploaded ∨ force then
    if budgetOk then (true, { doc with status := .processing })
    else (false, doc)
  else (false, doc)

/-- Modelled from the spec: serialized execution of a batch of
concurrent start-analysis requests (§5 makes the processing guard the
serialization point, so any interleaving is one of these orders).  Each
request is a (force, budgetOk) pair; returns how many were accepted and
the final document. -/
def runStarts : List (Bool × Bool) → DocRecord → ℕ × DocRecord
  | [], doc => (0, doc)
  | (f, b) :: rest, doc =>
    let r := startAnalysis f b doc
    let t := runStarts rest r.2
    ((if r.1 then 1 else 0) + t.1, t.2)

/-! Cost Budget Guard (§4.3, §9; architecture document "Budget Control").
The backend guard is not in the source tree; it is modelled from the
spec as a transactional ledger of append-only entries plus a set of
outstanding reservations, with reserve as the atomic serialization
point. -/

/-- One charge against the daily budget (§3 CostLedgerEntry: amount,
document id, and the UTC calendar day of its timestamp; the per-model
breakdown does not affect the daily sum and is elided). -/
structure LedgerEntry where
  day : ℕ
  docId : ℕ
  amount : ℚ
  deriving DecidableEq, Repr

/-- Modelled from the spec: an outstanding reservation registered by
reserve (§4.3): its token, the document it is for and the estimate it
holds against the ceiling. -/
structure Reservation where
  tok : ℕ
  docId : ℕ
  est : ℚ
  deriving DecidableEq, Repr

/-- Modelled from the spec: the budget guard's state — the current UTC
day, the committed ledger (append-only), the outstanding reservations
and the next fresh token. -/
structure GuardState where
  today : ℕ
  ledger : List LedgerEntry
  reservations : List Reservation
  nextTok : ℕ
  deriving DecidableEq, Repr

/-- The guard's initial state: day 0, empty ledger, no reservations. -/
def initGuard : GuardState := ⟨0, [], [], 0⟩

/-- Find the outstanding reservation carrying a token. -/
def lookupRes : List Reservation → ℕ → Option Reservation
  | [], _ => none
  | r :: rest, tok => if r.tok = tok then some r else lookupRes rest tok

/-- Remove the first outstanding reservation carrying a token. -/
def removeRes : List Reservation → ℕ → List Reservation
  | [], _ => []
  | r :: rest, tok => if r.tok = tok then rest else r :: removeRes rest tok

/-- Sum of the estimates of the outstanding reservations. -/
def resSum (l : List Reservation) : ℚ := (l.map (·.est)).sum

/-- Sum of committed ledger entries for one UTC calendar day. -/
def committedOn (ledger : List LedgerEntry) (d : ℕ) : ℚ :=
  ((ledger.filter (fun en => en.day = d)).map (·.amount)).sum

/-- Modelled from the spec: the events of the budget guard (§4.3):
reserve an estimate, settle a reservation at the actual measured cost,
release a reservation without committing, and the midnight-UTC day
rollover. -/
inductive GuardEvent where
  | reserve (docId : ℕ) (est : ℚ)
  | settle (tok : ℕ) (actual : ℚ)
  | release (tok : ℕ)
  | newDay
  deriving DecidableEq, Repr

/-- Modelled from the spec: one serialized step of the budget guard
(§4.3).  reserve atomically checks committed-today plus outstanding
reservations plus the estimate against the ceiling and registers the
reservation only when the check passes; settle converts an outstanding
reservation into a committed ledger entry at the actual cost; release
discards a reservation; newDay is the midnight-UTC rollover. -/
def guardStep (ceil : ℚ) : GuardEvent → GuardState → GuardState
  | .reserve docId est, s =>
    if committedOn s.ledger s.today + resSum s.reservations + est ≤ ceil then
      { s with reservations := ⟨s.nextTok, docId, est⟩ :: s.reservations,
               nextTok := s.nextTok + 1 }
    else s
  | .settle tok actual, s =>
    match lookupRes s.reservations tok with
    | some r =>
      { s with reservations := removeRes s.reservations tok,
               ledger := ⟨s.today, r.docId, actual⟩ :: s.ledger }
    | none => s
  | .release tok, s => { s with reservations := removeRes s.reservations tok }
  | .newDay, s => { s with today := s.today + 1 }

/-- Well-formedness of one event against the state it fires in:
estimates are nonnegative, and a settle records a nonnegative actual
cost that does not exceed the reservation's estimate (§4.3: the actual
measured cost may be less than the estimate). -/
def okayEvent (s : GuardState) : GuardEvent → Bool
  | .reserve _ est => decide (0 ≤ est)
  | .settle tok actual =>
    match lookupRes s.reservations tok with
    | some r => decide (0 ≤ actual) && decide (actual ≤ r.est)
    | none => true
  | .release _ => true
  | .newDay => true

/-- Well-formedness of a whole serialized event trace. -/
def okayTrace (ceil : ℚ) : GuardState → List GuardEvent → Bool
  | _, [] => true
  | s, e :: rest => okayEvent s e && okayTrace ceil (guardStep ceil e s) rest

/-- Run the guard over a serialized event trace. -/
def runGuard (ceil : ℚ) : GuardState → List GuardEvent → GuardState
  | s, [] => s
  | s, e :: rest => runGuard ceil (guardStep ceil e s) rest

/-- The guard's inductive invariant: reservation estimates and ledger
amounts are nonnegative, ledger entries never carry a future day, and
committed-today plus outstanding reservations stays within the ceiling,
as does every single day's committed sum. -/
def GuardInv (ceil : ℚ) (s : GuardState) : Prop :=
  (∀ r ∈ s.reservations, 0 ≤ r.est) ∧
  (∀ en ∈ s.ledger, 0 ≤ en.amount ∧ en.day ≤ s.today) ∧
  committedOn s.ledger s.today + resSum s.reservations ≤ ceil ∧
  ∀ d, committedOn s.ledger d ≤ ceil

/-! AI Orchestrator and pipeline (§4.4, §4.1; architecture document
"AIService").  Modelled from the spec: the backend service is not in
the source tree. -/

/-- Modelled from the spec: what one attempted model call does, as seen
by the retry loop (§4.4): succeed with a payload, fail transiently
(timeout, rate limit — retried), or fail fatally (auth failure,
malformed request — not retried).  Every attempt has the cost it
incurs. -/
inductive CallAttempt (α : Type) where
  | ok (val : α) (cost : ℚ)
  | transient (cost : ℚ)
  | fatal (cost : ℚ)
  deriving DecidableEq, Repr

/-- Modelled from the spec: run a model call with up to maxAttempts
attempts (§4.4: retried up to a fixed bound on transient errors;
non-transient errors fail immediately).  The environment supplies the
outcome of each attempt in order.  Returns the payload, when one was
obtained, and the total cost actually incurred by the attempts made. -/
def runWithRetry {α : Type} : ℕ → List (CallAttempt α) → Option α × ℚ
  | 0, _ => (none, 0)
  | _ + 1, [] => (none, 0)
  | _ + 1, .ok v c :: _ => (some v, c)
  | n + 1, .transient c :: rest =>
    let r := runWithRetry n rest
    (r.1, c + r.2)
  | _ + 1, .fatal c :: _ => (none, c)

/-- Modelled from the spec: how a run disposed of its budget
reservation — settled at the actual cost, or released without
committing (§4.3). -/
inductive BudgetAction where
  | settled (actualCost : ℚ)
  | released
  deriving DecidableEq, Repr

/-- The outcome of one whole analysis run: the terminal status it
routes to, the blocks of the AnalysisResult it produces, the total cost,
what happened to the reservation, and whether any model call was
made. -/
structure RunResult where
  status : DocStatus
  extraction : Option ExtractionOut
  analysis : Option AnalysisOut
  entities : Option EntitiesOut
  totalCostUsd : ℚ
  budget : BudgetAction
  modelCalled : Bool
  error : Option String
  deriving DecidableEq, Repr

/-- Modelled from the spec: the outcome of the extraction engine
(§4.2): failure (UnsupportedFormat or ExtractionIOError, both routed to
extraction_failed) or quality-scored text. -/
inductive ExtractionOutcome where
  | err (message : String)
  | ok (e : ExtractionOut)
  deriving DecidableEq, Repr

/-- The minimum acceptable quality score (§4.2: score below 0.3 is POOR
and routes to poor_quality; architecture document "Quality Scoring"). -/
def minQualityScore : ℚ := 3 / 10

/-- Modelled from the spec: one analysis run after a successful budget
reservation (§2 control flow, §4.1 transition table, §4.4).  Extraction
failure routes to extraction_failed with the reservation released;
quality below the minimum routes to poor_quality with null analysis and
entities and the reservation released, since no model call occurs;
otherwise the required primary call runs with retries — if it fails the
run fails and the incurred cost is settled; if it succeeds the optional
secondary call runs (in hybrid mode) and its failure is non-fatal:
the run completes with null entities, settling primary cost plus the
cost incurred by the failed secondary attempts. -/
def runPipeline (maxRetries : ℕ) (ext : ExtractionOutcome)
    (primary : List (CallAttempt AnalysisOut)) (secondaryEnabled : Bool)
    (secondary : List (CallAttempt EntitiesOut)) : RunResult :=
  match ext with
  | .err msg =>
    ⟨.extraction_failed, none, none, none, 0, .released, false, some msg⟩
  | .ok e =>
    if e.quality_score < minQualityScore then
      ⟨.poor_quality, some e, none, none, 0, .released, false,
        some "text quality below minimum acceptable score"⟩
    else
      match runWithRetry maxRetries primary with
      | (none, pcost) =>
        ⟨.failed, some e, none, none, pcost, .settled pcost, true,
          some "primary model failed after retries"⟩
      | (some a, pcost) =>
        if secondaryEnabled then
          let sres := runWithRetry maxRetries secondary
          ⟨.analysis_complete, some e, some a, sres.1, pcost + sres.2,
            .settled (pcost + sres.2), true, none⟩
        else
          ⟨.analysis_complete, some e, some a, none, pcost,
            .settled pcost, true, none⟩

/-- Build the durable AnalysisResult committed for a run: every block
comes from this run alone (§8: re-analysis replaces the prior result
entirely). -/
def resultOfRun (rr : RunResult) : AnalysisResultR :=
  { extraction := rr.extraction
    analysis := rr.analysis
    entities := rr.entities
    processing := { total_cost_usd := rr.totalCostUsd, error := rr.error } }

/-- Commit a finished run to the document: the new status and a result
built wholly from the run, with no field taken from the previous
result. -/
def commitRun (rr : RunResult) (_doc : DocRecord) : DocRecord :=
  ⟨rr.status, some (resultOfRun rr)⟩

/-- Modelled from the spec: the externally visible events of one
document's lifecycle — a start-analysis request (with its force flag
and the budget guard's verdict) and the completion of a run. -/
inductive DocEvent where
  | startReq (force : Bool) (budgetOk : Bool)
  | finishRun (rr : RunResult)

/-- Modelled from the spec: one step of the document lifecycle.  A
start request goes through the state machine guard; a run completion
commits only when the document is processing. -/
def docStep : DocEvent → DocRecord → DocRecord
  | .startReq f b, doc => (startAnalysis f b doc).2
  | .finishRun rr, doc => if doc.status = .processing then commitRun rr doc else doc

/-- A document as created at upload (§3: status uploaded, no result). -/
def initDoc : DocRecord := ⟨.uploaded, none⟩

/-- Run a document through a sequence of lifecycle events. -/
def runDoc : List DocEvent → DocRecord → DocRecord
  | [], doc => doc
  | e :: rest, doc => runDoc rest (docStep e doc)

/-- The six status strings of types/index.ts line 34. -/
def sixStatusStrings : List String :=
  ["uploaded", "processing", "failed", "analysis_complete",
   "extraction_failed", "poor_quality"]

/-! Citation Validator (§4.5).  Modelled from the spec: the backend
validator is not in the source tree (types/index.ts only declares the
entity shapes). -/

/-- Modelled from the spec: an extracted claim as the validator sees it
(§4.5): the entity with the quote cited as its evidence, its confidence
and the human-review marker. -/
structure CitedEntity where
  name : String
  role : String
  quote : String
  confidence : ℚ
  requires_human_review : Bool
  deriving DecidableEq, Repr

/-- Contiguous-sublist test: does the needle occur inside the
haystack? -/
def listInfix {α : Type} [DecidableEq α] (needle : List α) : List α → Bool
  | [] => needle.isEmpty
  | a :: rest => needle.isPrefixOf (a :: rest) || listInfix needle rest

/-- ASCII lower-casing of one character (case folding for the
validator's case-insensitive match). -/
def asciiLower (c : Char) : Char :=
  if 65 ≤ c.toNat ∧ c.toNat ≤ 90 then Char.ofNat (c.toNat + 32) else c

/-- Case-insensitive substring match of a quote in the source text
(§4.5): both sides are lower-cased and the quote is searched as a
contiguous substring. -/
def containsCI (sourceText quote : String) : Bool :=
  listInfix (quote.data.map asciiLower) (sourceText.data.map asciiLower)

/-- Modelled from the spec: validate one entity (§4.5): a quote that
cannot be located in the source text forces the confidence to 0.0 and
sets the requires_human_review marker; a located quote leaves the
entity untouched. -/
def validateEntity (sourceText : String) (e : CitedEntity) : CitedEntity :=
  if containsCI sourceText e.quote then e
  else { e with confidence := 0, requires_human_review := true }

/-- Modelled from the spec: the Citation Validator (§4.5) — annotates
every entity, removing none. -/
def validate (entities : List CitedEntity) (sourceText : String) :
    List CitedEntity :=
  entities.map (validateEntity sourceText)

/-! Bulk Analysis Coordinator cost estimation (§4.6; backend README
documentsApi.estimateCost).  Modelled from the spec: the backend
coordinator is not in the source tree. -/

/-- The cost estimate returned to the frontend
(types/index.ts, AnalysisCostEstimate). -/
structure CostEstimateR where
  total_documents : ℕ
  estimated_cost_usd : ℚ
  estimated_time_seconds : ℚ
  within_budget : Bool
  remaining_budget_usd : ℚ
  deriving DecidableEq, Repr

/-- The architecture document's per-document analysis time, seconds
(20-30 seconds per document; midpoint used). -/
def perDocTimeSeconds : ℚ := 25

/-- Modelled from the spec: estimateCost (§4.6) — sums the per-document
heuristic estimates and checks the total against the remaining ceiling,
advisory only. -/
def estimateCost (perDocEstimates : List ℚ) (remainingBudget : ℚ) :
    CostEstimateR :=
  { total_documents := perDocEstimates.length
    estimated_cost_usd := perDocEstimates.sum
    estimated_time_seconds := perDocTimeSeconds * perDocEstimates.length
    within_budget := decide (perDocEstimates.sum ≤ remainingBudget)
    remaining_budget_usd := remainingBudget }

/-- The budget remaining under the ceiling for the current day:
ceiling minus committed-today minus outstanding reservations. -/
def remainingBudget (ceil : ℚ) (s : GuardState) : ℚ :=
  ceil - committedOn s.ledger s.today - resSum s.reservations

/-- Modelled from the spec: the estimate-cost endpoint — computes the
advisory estimate against the guard's remaining ceiling and leaves the
guard state untouched (§4.6: without reserving). -/
def estimateCostApi (ceil : ℚ) (s : GuardState) (perDocEstimates : List ℚ) :
    CostEstimateR × GuardState :=
  (estimateCost perDocEstimates (remainingBudget ceil s), s)

/-! Frontend bulk-analysis confirmation modal
(src/v1/frontend/src/pages/Documents.tsx lines 658-704). -/

/-- The Proceed button's disabled attribute
(Documents.tsx line 696: not within_budget). -/
def proceedDisabled (est : CostEstimateR) : Bool := !est.within_budget

/-- The Cancel button carries no disabled attribute
(Documents.tsx lines 688-692). -/
def cancelDisabled (_est : CostEstimateR) : Bool := false

/-- A click on one of the modal's two buttons. -/
inductive ModalClick where
  | cancel
  | proceed
  deriving DecidableEq, Repr

/-- What a click produces: whether the modal closes, and the analyze-bulk
request issued, when one is. -/
structure ModalEffect where
  closed : Bool
  bulkRequest : Option (List String)
  deriving DecidableEq, Repr

/-- The cost-estimation modal's click handling (Documents.tsx lines
687-700): Cancel closes the modal without a request; Proceed, when not
disabled, closes the modal and invokes confirmBulkAnalyze, which issues
the analyze-bulk request for the selected documents (lines 156-170);
a disabled button does nothing. -/
def modalClick (est : CostEstimateR) (selectedDocIds : List String) :
    ModalClick → ModalEffect
  | .cancel => ⟨true, none⟩
  | .proceed =>
    if proceedDisabled est then ⟨false, none⟩
    else ⟨true, some selectedDocIds⟩

/-! Analysis editing on the document-detail page (src/unnamed/part_003).
The PATCH body built by handleSave (lines 185-218). -/

/-- The loaded analysis block the edit state is compared against
(part_003, analysis.analysis). -/
structure LoadedAnalysis where
  summary : String
  classification : String
  key_points : List String
  deriving DecidableEq, Repr

/-- The loaded entities block the edit state is compared against
(part_003, analysis.entities). -/
structure LoadedEntities where
  people : List PersonEntity
  dates : List String
  locations : List String
  case_numbers : List String
  organizations : List String
  deriving DecidableEq, Repr

/-- The edited values held in component state (part_003 lines 66-73). -/
structure EditState where
  editedSummary : String
  editedClassification : String
  editedKeyPoints : List String
  editedPeople : List PersonEntity
  editedDates : List String
  editedLocations : List String
  editedCaseNumbers : List String
  editedOrganizations : List String
  deriving DecidableEq, Repr

/-- The entities object placed in the PATCH body when any entity list
changed (types/index.ts, EntitiesUpdate; part_003 lines 208-214). -/
structure EntitiesUpdateR where
  people : List PersonEntity
  dates : List String
  locations : List String
  case_numbers : List String
  organizations : List String
  deriving DecidableEq, Repr

/-- The PATCH request body: every field optional
(types/index.ts, AnalysisUpdateRequest). -/
structure AnalysisUpdateRequestR where
  summary : Option String
  classification : Option String
  key_points : Option (List String)
  entities : Option EntitiesUpdateR
  deriving DecidableEq, Repr

/-- handleSave (part_003 lines 185-218): starts from an empty updates
object; adds summary, classification and key_points each only when the
edited value differs from the loaded analysis value (the key-point and
entity comparisons are JSON.stringify equality, embedded as structural
equality); adds the entities object, carrying all five edited lists,
only when at least one of the five lists differs. -/
def handleSave (ed : EditState) (an : LoadedAnalysis) (en : LoadedEntities) :
    AnalysisUpdateRequestR :=
  let u0 : AnalysisUpdateRequestR := ⟨none, none, none, none⟩
  let u1 := if ed.editedSummary ≠ an.summary
    then { u0 with summary := some ed.editedSummary } else u0
  let u2 := if ed.editedClassification ≠ an.classification
    then { u1 with classification := some ed.editedClassification } else u1
  let u3 := if ed.editedKeyPoints ≠ an.key_points
    then { u2 with key_points := some ed.editedKeyPoints } else u2
  if ed.editedPeople ≠ en.people ∨ ed.editedDates ≠ en.dates ∨
      ed.editedLocations ≠ en.locations ∨
      ed.editedCaseNumbers ≠ en.case_numbers ∨
      ed.editedOrganizations ≠ en.organizations then
    { u3 with entities := some ⟨ed.editedPeople, ed.editedDates,
        ed.editedLocations, ed.editedCaseNumbers, ed.editedOrganizations⟩ }
  else u3

/-! Concrete example values used by the witness theorems. -/

/-- A concrete primary-model analysis block. -/
def exAnalysisOut : AnalysisOut :=
  ⟨"Summary of the chargesheet", "Chargesheet", 9/10, ["key point one"],
    "claude-3-5-haiku"⟩

/-- A concrete secondary-model entities block. -/
def exEntitiesOut : EntitiesOut :=
  ⟨[⟨"John Doe", "Accused", 9/10⟩], ["2024-01-01"], ["Mumbai"], ["CR-12"],
    [], "gpt-4-turbo"⟩

/-- A concrete good-quality extraction block. -/
def exExtraction : ExtractionOut := ⟨"Accused John Doe", 16, 95/100, "pdfplumber"⟩

/-- A concrete poor-quality extraction block (quality score 0.25). -/
def exPoorExtraction : ExtractionOut := ⟨"zz@#q", 5, 1/4, "tesseract"⟩

/-- A concrete previously committed AnalysisResult. -/
def exOldResult : AnalysisResultR :=
  ⟨some exExtraction, some exAnalysisOut, some exEntitiesOut, ⟨13/1000, none⟩⟩

/-- A concrete fresh run outcome. -/
def exRun : RunResult :=
  ⟨.analysis_complete, some exExtraction, some exAnalysisOut, none, 1/100,
    .settled (1/100), true, none⟩

/-! Helper lemmas about the budget guard. -/

/-- A reservation found by token is in the list. -/
theorem lookupRes_mem {l : List Reservation} {tok : ℕ} {r : Reservation}
    (h : lookupRes l tok = some r) : r ∈ l := by
  induction l with
  | nil => simp [lookupRes] at h
  | cons a rest ih =>
    simp only [lookupRes] at h
    split at h
    · obtain rfl := Option.some_inj.mp h
      exact List.mem_cons_self _ _
    · exact List.mem_cons_of_mem _ (ih h)

/-- Removing a reservation introduces no new reservation. -/
theorem mem_removeRes {l : List Reservation} {tok : ℕ} {r : Reservation}
    (h : r ∈ removeRes l tok) : r ∈ l := by
  induction l with
  | nil => simp [removeRes] at h
  | cons a rest ih =>
    simp only [removeRes] at h
    split at h
    · exact List.mem_cons_of_mem _ h
    · rcases List.mem_cons.mp h with rfl | h
      · exact List.mem_cons_self _ _
      · exact List.mem_cons_of_mem _ (ih h)

/-- Summing reservations after removing the one a token found:
exactly its estimate is subtracted. -/
theorem resSum_removeRes {l : List Reservation} {tok : ℕ} {r : Reservation}
    (h : lookupRes l tok = some r) :
    resSum (removeRes l tok) = resSum l - r.est := by
  induction l with
  | nil => simp [lookupRes] at h
  | cons a rest ih =>
    simp only [lookupRes] at h
    by_cases htok : a.tok = tok
    · rw [if_pos htok] at h
      obtain rfl := Option.some_inj.mp h
      simp [removeRes, htok, resSum]
    · rw [if_neg htok] at h
      simp only [removeRes, if_neg htok]
      have hrec := ih h
      simp only [resSum, List.map_cons, List.sum_cons] at hrec ⊢
      linarith

/-- Removing a reservation never increases the outstanding sum, as long
as estimates are nonnegative. -/
theorem resSum_removeRes_le {l : List Reservation} (tok : ℕ)
    (h : ∀ r ∈ l, 0 ≤ r.est) : resSum (removeRes l tok) ≤ resSum l := by
  induction l with
  | nil => simp [removeRes]
  | cons a rest ih =>
    simp only [removeRes]
    have ha := h a (List.mem_cons_self a rest)
    have hrest := ih fun r hr => h r (List.mem_cons_of_mem _ hr)
    split
    · simp only [resSum, List.map_cons, List.sum_cons]
      linarith
    · simp only [resSum, List.map_cons, List.sum_cons]
      have : resSum (removeRes rest tok) ≤ resSum rest := hrest
      simp only [resSum] at this
      linarith

/-- The outstanding sum of nonnegative estimates is nonnegative. -/
theorem resSum_nonneg {l : List Reservation} (h : ∀ r ∈ l, 0 ≤ r.est) :
    0 ≤ resSum l := by
  apply List.sum_nonneg
  intro x hx
  rcases List.mem_map.mp hx with ⟨r, hr, rfl⟩
  exact h r hr

/-- Unfolding a day's committed sum over a cons. -/
theorem committedOn_cons (en : LedgerEntry) (l : List LedgerEntry) (d : ℕ) :
    committedOn (en :: l) d =
      (if en.day = d then en.amount else 0) + committedOn l d := by
  by_cases h : en.day = d <;> simp [committedOn, List.filter_cons, h]

/-- A day's committed sum of nonnegative amounts is nonnegative. -/
theorem committedOn_nonneg {l : List LedgerEntry}
    (h : ∀ en ∈ l, 0 ≤ en.amount) (d : ℕ) : 0 ≤ committedOn l d := by
  induction l with
  | nil => simp [committedOn]
  | cons a rest ih =>
    rw [committedOn_cons]
    have h1 := h a (List.mem_cons_self a rest)
    have h2 := ih fun en hen => h en (List.mem_cons_of_mem _ hen)
    split
    · linarith
    · linarith

/-- No ledger entry carries a day beyond the current one, so the next
day opens with a zero committed sum. -/
theorem committedOn_beyond {l : List LedgerEntry} {t : ℕ}
    (h : ∀ en ∈ l, en.day ≤ t) : committedOn l (t + 1) = 0 := by
  induction l with
  | nil => rfl
  | cons a rest ih =>
    rw [committedOn_cons]
    have ha := h a (List.mem_cons_self a rest)
    rw [if_neg (by omega), ih fun en hen => h en (List.mem_cons_of_mem _ hen)]
    ring

/-- Every well-formed guard step preserves the guard invariant. -/
theorem guardStep_preserves_inv {ceil : ℚ} {s : GuardState} {e : GuardEvent}
    (hinv : GuardInv ceil s) (hok : okayEvent s e = true) :
    GuardInv ceil (guardStep ceil e s) := by
  obtain ⟨hres, hled, htoday, hall⟩ := hinv
  cases e with
  | reserve docId est =>
    have hest : 0 ≤ est := by simpa [okayEvent] using hok
    simp only [guardStep]
    split
    case isTrue hguard =>
      refine ⟨?_, hled, ?_, hall⟩
      · intro r hr
        rcases List.mem_cons.mp hr with rfl | hr
        · exact hest
        · exact hres r hr
      · simp only [resSum, List.map_cons, List.sum_cons]
        simp only [resSum] at hguard
        linarith
    case isFalse _ => exact ⟨hres, hled, htoday, hall⟩
  | settle tok actual =>
    cases hfind : lookupRes s.reservations tok with
    | none =>
      simp only [guardStep, hfind]
      exact ⟨hres, hled, htoday, hall⟩
    | some r =>
      have hok2 : 0 ≤ actual ∧ actual ≤ r.est := by
        have := hok
        simp only [okayEvent, hfind, Bool.and_eq_true, decide_eq_true_eq] at this
        exact this
      obtain ⟨hact0, hactle⟩ := hok2
      have hsum := resSum_removeRes hfind
      have hremnn : 0 ≤ resSum (removeRes s.reservations tok) :=
        resSum_nonneg fun x hx => hres x (mem_removeRes hx)
      simp only [guardStep, hfind]
      refine ⟨?_, ?_, ?_, ?_⟩
      · intro x hx
        exact hres x (mem_removeRes hx)
      · intro en hen
        rcases List.mem_cons.mp hen with rfl | hen
        · exact ⟨hact0, le_refl _⟩
        · exact hled en hen
      · rw [committedOn_cons, if_pos rfl, hsum]
        linarith
      · intro d
        rw [committedOn_cons]
        by_cases hd : s.today = d
        · subst hd
          rw [if_pos rfl]
          have := hall s.today
          linarith
        · rw [if_neg hd]
          have := hall d
          linarith
  | release tok =>
    simp only [guardStep]
    have hle := resSum_removeRes_le tok hres
    refine ⟨fun x hx => hres x (mem_removeRes hx), hled, by linarith, hall⟩
  | newDay =>
    simp only [guardStep]
    refine ⟨hres, ?_, ?_, hall⟩
    · intro en hen
      exact ⟨(hled en hen).1, Nat.le_succ_of_le (hled en hen).2⟩
    · rw [committedOn_beyond fun en hen => (hled en hen).2]
      have h0 : 0 ≤ committedOn s.ledger s.today :=
        committedOn_nonneg (fun en hen => (hled en hen).1) _
      linarith

/-- A well-formed trace run from an invariant state lands in an
invariant state. -/
theorem runGuard_preserves_inv (ceil : ℚ) (evts : List GuardEvent) :
    ∀ s : GuardState, GuardInv ceil s → okayTrace ceil s evts = true →
      GuardInv ceil (runGuard ceil s evts) := by
  induction evts with
  | nil =>
    intro s h _
    simpa [runGuard] using h
  | cons e rest ih =>
    intro s h hok
    simp only [okayTrace, Bool.and_eq_true] at hok
    exact ih _ (guardStep_preserves_inv h hok.1) hok.2

/-- The guard invariant holds initially whenever the ceiling is
nonnegative. -/
theorem guardInv_init {ceil : ℚ} (h : 0 ≤ ceil) : GuardInv ceil initGuard := by
  refine ⟨by simp [initGuard], by simp [initGuard], ?_, fun d => ?_⟩
  · simp only [initGuard, committedOn, resSum, List.filter_nil, List.map_nil,
      List.sum_nil, add_zero]
    exact h
  · simpa [initGuard, committedOn] using h

/-- C1: for every UTC calendar day, the sum of committed cost-ledger
entries for that day never exceeds the configured daily ceiling.  Every
spend passes through reserve, which atomically checks committed-today
plus outstanding reservations plus the new estimate against the ceiling
before registering the reservation; since reserve, settle and release
are serialized, every concurrent execution is equivalent to some
well-formed event trace, over all of which the bound is proved. -/
theorem c1_daily_ledger_within_ceiling (ceil : ℚ) (h0 : 0 ≤ ceil)
    (evts : List GuardEvent) (hok : okayTrace ceil initGuard evts = true)
    (d : ℕ) :
    committedOn (runGuard ceil initGuard evts).ledger d ≤ ceil :=
  (runGuard_preserves_inv ceil evts initGuard (guardInv_init h0) hok).2.2.2 d

/-- Witness for C1: a concrete trace — a reservation of 2 settled at
an actual cost of 1 — keeps day 0 of the ledger within a ceiling of
10. -/
theorem c1_daily_ledger_within_ceiling_witness :
    (0 : ℚ) ≤ 10 ∧
    okayTrace 10 initGuard
      [GuardEvent.reserve 1 2, GuardEvent.settle 0 1] = true ∧
    committedOn (runGuard 10 initGuard
      [GuardEvent.reserve 1 2, GuardEvent.settle 0 1]).ledger 0 ≤ 10 :=
  ⟨by norm_num,
    by norm_num [okayTrace, okayEvent, guardStep, initGuard, lookupRes,
      removeRes, committedOn, resSum],
    c1_daily_ledger_within_ceiling 10 (by norm_num) _
      (by norm_num [okayTrace, okayEvent, guardStep, initGuard, lookupRes,
        removeRes, committedOn, resSum]) 0⟩

/-- A document already processing absorbs any batch of start requests:
none is accepted and the document is unchanged. -/
theorem runStarts_processing (reqs : List (Bool × Bool)) (doc : DocRecord)
    (h : doc.status = .processing) : runStarts reqs doc = (0, doc) := by
  induction reqs with
  | nil => rfl
  | cons p rest ih =>
    obtain ⟨f, b⟩ := p
    have hstart : startAnalysis f b doc = (false, doc) := by
      simp [startAnalysis, h]
    simp [runStarts, hstart, ih]

/-- C2: at most one analysis run is processing per document at any
instant.  A start-analysis request against a document already
processing is rejected outright with the document unchanged (not
queued), and among N concurrent start-analysis calls serialized against
a document whose run they race to create, exactly one is accepted — the
first, which flips the document to processing, after which every later
call is rejected. -/
theorem c2_at_most_one_active_run (force budgetOk : Bool)
    (docP : DocRecord) (hP : docP.status = .processing) (n : ℕ)
    (doc : DocRecord) (hIdle : doc.status ≠ .processing) :
    startAnalysis force budgetOk docP = (false, docP) ∧
    (runStarts (List.replicate (n + 1) (true, true)) doc).1 = 1 := by
  constructor
  · simp [startAnalysis, hP]
  · have hstart : startAnalysis true true doc =
        (true, { doc with status := .processing }) := by
      simp [startAnalysis, hIdle]
    rw [List.replicate_succ]
    simp [runStarts, hstart, runStarts_processing]

/-- Witness for C2: a processing document rejects a start, and three
serialized starts against an uploaded document accept exactly one. -/
theorem c2_at_most_one_active_run_witness :
    ((⟨.processing, none⟩ : DocRecord).status = .processing) ∧
    ((⟨.uploaded, none⟩ : DocRecord).status ≠ .processing) ∧
    startAnalysis false true ⟨.processing, none⟩ =
      (false, ⟨.processing, none⟩) ∧
    (runStarts (List.replicate 3 (true, true)) ⟨.uploaded, none⟩).1 = 1 :=
  ⟨rfl, by decide,
    (c2_at_most_one_active_run false true ⟨.processing, none⟩ rfl 2
      ⟨.uploaded, none⟩ (by decide)).1,
    (c2_at_most_one_active_run false true ⟨.processing, none⟩ rfl 2
      ⟨.uploaded, none⟩ (by decide)).2⟩

/-- C3: from every terminal status — failed, extraction_failed,
poor_quality, and also analysis_complete — a forced re-analysis request
with a successful budget reservation is accepted and moves the document
back to processing, and the completion of the new run commits a result
built wholly from that run: no field of the prior AnalysisResult is
merged in. -/
theorem c3_force_reanalysis_replaces_result (doc : DocRecord)
    (hterm : doc.status.isTerminal = true) (rr : RunResult) :
    (startAnalysis true true doc).1 = true ∧
    ((startAnalysis true true doc).2).status = .processing ∧
    docStep (.finishRun rr) ((startAnalysis true true doc).2) =
      ⟨rr.status, some (resultOfRun rr)⟩ := by
  have hne : doc.status ≠ .processing := by
    intro h
    rw [h] at hterm
    simp [DocStatus.isTerminal] at hterm
  have hstart : startAnalysis true true doc =
      (true, { doc with status := .processing }) := by
    simp [startAnalysis, hne]
  rw [hstart]
  exact ⟨rfl, rfl, by simp [docStep, commitRun]⟩

/-- Witness for C3: forced re-analysis of an analysis_complete document
holding a full prior result commits exactly the new run's result. -/
theorem c3_force_reanalysis_replaces_result_witness :
    (DocRecord.mk .analysis_complete (some exOldResult)).status.isTerminal
      = true ∧
    docStep (.finishRun exRun)
        ((startAnalysis true true ⟨.analysis_complete, some exOldResult⟩).2) =
      ⟨exRun.status, some (resultOfRun exRun)⟩ :=
  ⟨rfl,
    (c3_force_reanalysis_replaces_result ⟨.analysis_complete, some exOldResult⟩
      rfl exRun).2.2⟩

/-- C5: every document reachable through the lifecycle carries one of
exactly the six status values of types/index.ts — uploaded, processing,
analysis_complete, failed, extraction_failed, poor_quality — so no
other status string is ever persisted. -/
theorem c5_status_one_of_six (events : List DocEvent) :
    DocStatus.statusString (runDoc events initDoc).status ∈ sixStatusStrings := by
  have h : ∀ s : DocStatus, DocStatus.statusString s ∈ sixStatusStrings := by
    intro s
    cases s <;> simp [DocStatus.statusString, sixStatusStrings]
  exact h _

/-- C4: an extraction that succeeds with quality score strictly below
0.3 routes the document to poor_quality with the analysis and entities
fields null and the budget reservation released rather than settled,
since no model call occurs; a score of 0.3 or above proceeds to the AI
analysis (a model call is made). -/
theorem c4_poor_quality_routing (maxRetries : ℕ) (e : ExtractionOut)
    (primary : List (CallAttempt AnalysisOut)) (secondaryEnabled : Bool)
    (secondary : List (CallAttempt EntitiesOut)) :
    (e.quality_score < minQualityScore →
      (runPipeline maxRetries (.ok e) primary secondaryEnabled secondary).status
          = .poor_quality ∧
      (runPipeline maxRetries (.ok e) primary secondaryEnabled secondary).analysis
          = none ∧
      (runPipeline maxRetries (.ok e) primary secondaryEnabled secondary).entities
          = none ∧
      (runPipeline maxRetries (.ok e) primary secondaryEnabled secondary).budget
          = .released ∧
      (runPipeline maxRetries (.ok e) primary secondaryEnabled secondary).modelCalled
          = false) ∧
    (minQualityScore ≤ e.quality_score →
      (runPipeline maxRetries (.ok e) primary secondaryEnabled secondary).modelCalled
          = true) := by
  constructor
  · intro h
    simp [runPipeline, if_pos h]
  · intro h
    have hnot : ¬ e.quality_score < minQualityScore := not_lt.mpr h
    simp only [runPipeline, if_neg hnot]
    rcases hp : runWithRetry maxRetries primary with ⟨p1, p2⟩
    cases p1 with
    | none => simp
    | some a => cases secondaryEnabled <;> simp

/-- Witness for C4: quality 0.25 routes to poor_quality with nulls and
a released reservation; quality 0.95 makes the model call. -/
theorem c4_poor_quality_routing_witness :
    exPoorExtraction.quality_score < minQualityScore ∧
    (runPipeline 3 (.ok exPoorExtraction)
        [CallAttempt.ok exAnalysisOut (5/1000)] true []).status
      = .poor_quality ∧
    (runPipeline 3 (.ok exPoorExtraction)
        [CallAttempt.ok exAnalysisOut (5/1000)] true []).analysis = none ∧
    (runPipeline 3 (.ok exPoorExtraction)
        [CallAttempt.ok exAnalysisOut (5/1000)] true []).entities = none ∧
    (runPipeline 3 (.ok exPoorExtraction)
        [CallAttempt.ok exAnalysisOut (5/1000)] true []).budget = .released ∧
    minQualityScore ≤ exExtraction.quality_score ∧
    (runPipeline 3 (.ok exExtraction)
        [CallAttempt.ok exAnalysisOut (5/1000)] true []).modelCalled = true := by
  have h1 : exPoorExtraction.quality_score < minQualityScore := by
    norm_num [exPoorExtraction, minQualityScore]
  have h2 : minQualityScore ≤ exExtraction.quality_score := by
    norm_num [exExtraction, minQualityScore]
  obtain ⟨ha, _⟩ := c4_poor_quality_routing 3 exPoorExtraction
    [CallAttempt.ok exAnalysisOut (5/1000)] true []
  obtain ⟨_, hd⟩ := c4_poor_quality_routing 3 exExtraction
    [CallAttempt.ok exAnalysisOut (5/1000)] true []
  exact ⟨h1, (ha h1).1, (ha h1).2.1, (ha h1).2.2.1, (ha h1).2.2.2.1, h2, hd h2⟩

/-- C6: in hybrid mode, when the primary call succeeds and the
secondary call fails transiently on all three attempts of its retry
budget, the run still completes: status analysis_complete, entities
null, and the total cost is the primary-model spend plus the cost the
three failed secondary attempts actually incurred — secondary failure
never fails the document. -/
theorem c6_secondary_failure_nonfatal (e : ExtractionOut)
    (hq : minQualityScore ≤ e.quality_score)
    (primary : List (CallAttempt AnalysisOut)) (a : AnalysisOut) (pcost : ℚ)
    (hp : runWithRetry 3 primary = (some a, pcost))
    (cost1 cost2 cost3 : ℚ) (rest : List (CallAttempt EntitiesOut)) :
    runPipeline 3 (.ok e) primary true
        (.transient cost1 :: .transient cost2 :: .transient cost3 :: rest) =
      ⟨.analysis_complete, some e, some a, none,
        pcost + (cost1 + cost2 + cost3),
        .settled (pcost + (cost1 + cost2 + cost3)), true, none⟩ := by
  have hnot : ¬ e.quality_score < minQualityScore := not_lt.mpr hq
  have hsec : runWithRetry 3
      (CallAttempt.transient (α := EntitiesOut) cost1 :: .transient cost2 ::
        .transient cost3 :: rest) =
      (none, cost1 + (cost2 + (cost3 + 0))) := rfl
  simp only [runPipeline, if_neg hnot, hp, hsec, if_true]
  simp only [RunResult.mk.injEq, BudgetAction.settled.injEq,
    eq_self_iff_true, true_and, and_true]
  constructor <;> ring

/-- Witness for C6: a one-shot successful primary call at $0.005 plus
three transient secondary failures at $0.001, $0.002, $0.003. -/
theorem c6_secondary_failure_nonfatal_witness :
    minQualityScore ≤ exExtraction.quality_score ∧
    runWithRetry 3 [CallAttempt.ok exAnalysisOut (5/1000)] =
      (some exAnalysisOut, 5/1000) ∧
    runPipeline 3 (.ok exExtraction) [CallAttempt.ok exAnalysisOut (5/1000)]
        true [.transient (1/1000), .transient (2/1000), .transient (3/1000)] =
      ⟨.analysis_complete, some exExtraction, some exAnalysisOut, none,
        5/1000 + (1/1000 + 2/1000 + 3/1000),
        .settled (5/1000 + (1/1000 + 2/1000 + 3/1000)), true, none⟩ := by
  have h2 : minQualityScore ≤ exExtraction.quality_score := by
    norm_num [exExtraction, minQualityScore]
  exact ⟨h2, rfl,
    c6_secondary_failure_nonfatal exExtraction h2
      [CallAttempt.ok exAnalysisOut (5/1000)] exAnalysisOut (5/1000) rfl
      (1/1000) (2/1000) (3/1000) []⟩

/-- C7: the Citation Validator removes no entity — its output has the
same length with every input entity still at its position — and any
entity whose cited quote is not a case-insensitive substring of the
source text comes out with confidence forced to 0.0 and the
requires_human_review marker set, while a located quote leaves the
entity untouched. -/
theorem c7_validator_annotates_never_removes (entities : List CitedEntity)
    (sourceText : String) :
    (validate entities sourceText).length = entities.length ∧
    ∀ i : ℕ, ∀ e : CitedEntity, entities[i]? = some e →
      (containsCI sourceText e.quote = false →
        (validate entities sourceText)[i]? =
          some { e with confidence := 0, requires_human_review := true }) ∧
      (containsCI sourceText e.quote = true →
        (validate entities sourceText)[i]? = some e) := by
  refine ⟨by simp [validate], ?_⟩
  intro i e hi
  constructor
  · intro hfound
    simp [validate, List.getElem?_map, hi, validateEntity, hfound]
  · intro hfound
    simp [validate, List.getElem?_map, hi, validateEntity, hfound]

/-- Witness for C7: a quote absent from the source text gets confidence
0.0 and the review marker while the entity stays in place. -/
theorem c7_validator_annotates_never_removes_witness :
    containsCI "Accused John Doe" "Jane Smith" = false ∧
    (validate [⟨"Jane Smith", "Witness", "Jane Smith", 8/10, false⟩]
        "Accused John Doe")[0]? =
      some ⟨"Jane Smith", "Witness", "Jane Smith", 0, true⟩ := by
  have hfound : containsCI "Accused John Doe" "Jane Smith" = false := by decide
  exact ⟨hfound,
    ((c7_validator_annotates_never_removes
        [⟨"Jane Smith", "Witness", "Jane Smith", 8/10, false⟩]
        "Accused John Doe").2 0
        ⟨"Jane Smith", "Witness", "Jane Smith", 8/10, false⟩ rfl).1 hfound⟩

/-- C8: estimateCost sums the per-document estimates without reserving
— the guard state it is computed against is returned unchanged — and
compares the total to the remaining ceiling: five documents estimated
at $0.013 each against $0.05 of remaining budget give
estimated_cost_usd = 0.065 and within_budget = false. -/
theorem c8_estimateCost_scenario (ceil : ℚ) (s : GuardState) :
    (estimateCostApi ceil s (List.replicate 5 (13/1000))).2 = s ∧
    (estimateCost (List.replicate 5 (13/1000)) (5/100)).total_documents = 5 ∧
    (estimateCost (List.replicate 5 (13/1000)) (5/100)).estimated_cost_usd
      = 65/1000 ∧
    (estimateCost (List.replicate 5 (13/1000)) (5/100)).within_budget
      = false := by
  refine ⟨rfl, rfl, ?_, ?_⟩
  · simp only [estimateCost, List.sum_replicate, nsmul_eq_mul]
    norm_num
  · simp only [estimateCost, List.sum_replicate, nsmul_eq_mul,
      decide_eq_false_iff_not, not_le]
    norm_num

/-- C9: whenever the cost estimate for the selected documents has
within_budget = false, the Proceed control is disabled, so
confirmBulkAnalyze — and hence the analyze-bulk request — is never
invoked for that selection; cancelling stays possible in every estimate
state. -/
theorem c9_over_budget_never_proceeds (est : CostEstimateR)
    (hover : est.within_budget = false) (sel : List String) :
    (∀ click : ModalClick, (modalClick est sel click).bulkRequest = none) ∧
    ∀ est2 : CostEstimateR, cancelDisabled est2 = false := by
  constructor
  · intro click
    cases click with
    | cancel => rfl
    | proceed => simp [modalClick, proceedDisabled, hover]
  · intro est2
    rfl

/-- Witness for C9: a concrete over-budget estimate never yields an
analyze-bulk request from a Proceed click. -/
theorem c9_over_budget_never_proceeds_witness :
    (CostEstimateR.mk 2 (1/10) 50 false (1/20)).within_budget = false ∧
    (modalClick ⟨2, 1/10, 50, false, 1/20⟩ ["doc-1", "doc-2"]
      .proceed).bulkRequest = none :=
  ⟨rfl, (c9_over_budget_never_proceeds ⟨2, 1/10, 50, false, 1/20⟩ rfl
    ["doc-1", "doc-2"]).1 .proceed⟩

/-- C10: handleSave includes summary, classification and key_points in
the PATCH body only when the edited value differs from the loaded
analysis value, includes entities only when at least one of the five
entity lists differs (and then carries all five edited lists), and
omits every field whose edited value equals the loaded value. -/
theorem c10_handleSave_sends_only_changed (ed : EditState)
    (an : LoadedAnalysis) (en : LoadedEntities) :
    ((ed.editedSummary = an.summary →
        (handleSave ed an en).summary = none) ∧
      (ed.editedSummary ≠ an.summary →
        (handleSave ed an en).summary = some ed.editedSummary)) ∧
    ((ed.editedClassification = an.classification →
        (handleSave ed an en).classification = none) ∧
      (ed.editedClassification ≠ an.classification →
        (handleSave ed an en).classification
          = some ed.editedClassification)) ∧
    ((ed.editedKeyPoints = an.key_points →
        (handleSave ed an en).key_points = none) ∧
      (ed.editedKeyPoints ≠ an.key_points →
        (handleSave ed an en).key_points = some ed.editedKeyPoints)) ∧
    ((ed.editedPeople = en.people ∧ ed.editedDates = en.dates ∧
        ed.editedLocations = en.locations ∧
        ed.editedCaseNumbers = en.case_numbers ∧
        ed.editedOrganizations = en.organizations →
        (handleSave ed an en).entities = none) ∧
      (ed.editedPeople ≠ en.people ∨ ed.editedDates ≠ en.dates ∨
        ed.editedLocations ≠ en.locations ∨
        ed.editedCaseNumbers ≠ en.case_numbers ∨
        ed.editedOrganizations ≠ en.organizations →
        (handleSave ed an en).entities =
          some ⟨ed.editedPeople, ed.editedDates, ed.editedLocations,
            ed.editedCaseNumbers, ed.editedOrganizations⟩)) := by
  simp only [handleSave]
  split_ifs with h1 h2 h3 h4 <;>
    refine ⟨⟨?_, ?_⟩, ⟨?_, ?_⟩, ⟨?_, ?_⟩, ⟨?_, ?_⟩⟩ <;>
    intro hh <;> simp_all

/-- Witness for C10: a changed summary is sent, unchanged
classification, key points and entities are omitted. -/
theorem c10_handleSave_sends_only_changed_witness :
    ("Edited summary" ≠ "Old summary") ∧
    (handleSave
        ⟨"Edited summary", "Chargesheet", ["p"], [], ["2024-01-01"], [], [], []⟩
        ⟨"Old summary", "Chargesheet", ["p"]⟩
        ⟨[], ["2024-01-01"], [], [], []⟩).summary = some "Edited summary" ∧
    (handleSave
        ⟨"Edited summary", "Chargesheet", ["p"], [], ["2024-01-01"], [], [], []⟩
        ⟨"Old summary", "Chargesheet", ["p"]⟩
        ⟨[], ["2024-01-01"], [], [], []⟩).classification = none ∧
    (handleSave
        ⟨"Edited summary", "Chargesheet", ["p"], [], ["2024-01-01"], [], [], []⟩
        ⟨"Old summary", "Chargesheet", ["p"]⟩
        ⟨[], ["2024-01-01"], [], [], []⟩).entities = none := by
  obtain ⟨⟨_, hsum⟩, ⟨hcls, _⟩, _, ⟨hent, _⟩⟩ :=
    c10_handleSave_sends_only_changed
      ⟨"Edited summary", "Chargesheet", ["p"], [], ["2024-01-01"], [], [], []⟩
      ⟨"Old summary", "Chargesheet", ["p"]⟩
      ⟨[], ["2024-01-01"], [], [], []⟩
  exact ⟨by decide, hsum (by decide), hcls rfl, hent ⟨rfl, rfl, rfl, rfl, rfl⟩⟩

end CaseAnalysis
